import Mathlib

/-!
Shallow embedding of `src/utils/AsyncExecutor.py` (class `AsyncExecutor`, its
worker helper `_run_long_task` and its submission coroutine `async_wrapper`).

The registries (`_running_tasks`, `_queued_tasks`, `_process_pids`) are
modelled as insertion-ordered association lists, matching Python dict
semantics: assignment to a fresh key appends at the tail, assignment to an
existing key updates the entry in place, deletion removes the entry; iteration
order is insertion order, so `next(iter(d.items()))` is the oldest entry.

The event loop, futures and OS processes are abstracted: a completion event
carries the value the resolved future holds (the return value of the
`async_wrapper` coroutine, or a cancellation), and the running-task branch of
`cancel_task` takes an oracle recording what its `future.done()`, cancel and
process-liveness probes returned at each point.  Exceptions raised by the
modelled Python code are explicit `Except` errors paired with the state as
mutated up to the raise point.
-/

namespace AsyncExec

abbrev TaskId := String

/-- Keys of an association list, in insertion order. -/
def keysOf {α : Type} (l : List (TaskId × α)) : List TaskId :=
  l.map Prod.fst

/-- Python dict deletion: drop the entry with the given key. -/
def removeKey {α : Type} (l : List (TaskId × α)) (k : TaskId) : List (TaskId × α) :=
  l.filter (fun p => p.1 != k)

/-- Python dict assignment: update in place when the key exists, otherwise
append at the tail. -/
def setKey {α : Type} (l : List (TaskId × α)) (k : TaskId) (v : α) : List (TaskId × α) :=
  if k ∈ keysOf l then l.map (fun p => if p.1 = k then (k, v) else p) else l ++ [(k, v)]

/-- The data of a submitted task that the claims depend on: the `is_long_task`
flag, whether the callable and arguments are cross-process picklable, and
whether a completion callback was supplied.  The callable itself and its
arguments are abstracted away (their behaviour is supplied at completion
events). -/
structure Descriptor where
  isLong : Bool
  transferable : Bool
  hasCallback : Bool
deriving DecidableEq, Repr

/-- Exceptions that occur in the modelled code paths. -/
inductive Exc where
  /-- Pickling failure when the process pool tries to serialize a
  non-transferable payload. -/
  | notTransferable
  /-- `concurrent.futures.CancelledError` / `asyncio.CancelledError`. -/
  | cancelledErr
  /-- `concurrent.futures.process.BrokenProcessPool`. -/
  | brokenPool
  /-- `NameError`: `_run_long_task` references `traceback`, which the module
  never imports. -/
  | nameErr
  /-- `TypeError`: calling the unset (`None`) notification hook. -/
  | typeErr
  /-- `StopIteration` from `next(iter(...))` on an empty dict. -/
  | stopIteration
  /-- `RuntimeError("Executor is shutting down", SHUTDOWN)`. -/
  | shutdownErr
  /-- `RuntimeError("Event loop not ready", LOOP_NOT_READY)`. -/
  | loopNotReady
deriving DecidableEq, Repr

/-- The argument `_done_callback` passes to the user callback: either the
callable's value or a `RuntimeError` wrapping the original exception
(line 298 of the source). -/
inductive ResultVal where
  | normal (v : Nat)
  | runtimeError (cause : Exc)
deriving DecidableEq, Repr

/-- Return value of the `async_wrapper` coroutine: it catches every exception
and returns it, so its result is a plain value or an exception object returned
as a value. -/
inductive WrapperResult where
  | val (v : Nat)
  | excVal (e : Exc)
deriving DecidableEq, Repr

/-- What `future.result()` yields inside `_done_callback`: the wrapper's
return value, or a raised `CancelledError` when the coroutine was cancelled. -/
inductive FutureResult where
  | res (w : WrapperResult)
  | cancelled
deriving DecidableEq, Repr

/-- How a long-task callable run ends inside the worker process.  `killed`
models external termination of the worker (POSIX `SIGKILL` /
Windows `TerminateProcess`, as issued by `ProcessTerminator`): the process is
destroyed immediately and no further Python code of the wrapper — including
`finally` blocks — runs. -/
inductive RunExit where
  | normal (v : Nat)
  | raisesExc (e : Exc)
  | killed
deriving DecidableEq, Repr

/-- How the pool-side execution of `_run_long_task` concludes, as observed by
the parent through the executor future. -/
inductive LongTaskOutcome where
  | returned (v : Nat)
  /-- The wrapper itself raised (see `run_long_task`). -/
  | raised (e : Exc)
  /-- The worker process died; the pool reports `BrokenProcessPool`. -/
  | terminated
deriving DecidableEq, Repr

/-- Oracle for the running-task branch of `cancel_task`: what each
`future.done()` probe, the cooperative-cancel watchdog and the final process
liveness check returned. -/
structure CancelOracle where
  /-- `future.done()` at the early check (source line 536). -/
  doneAtCheck : Bool
  /-- `future.done()` right before the cooperative cancel attempt (line 567). -/
  doneBeforeCancel : Bool
  /-- Result of `_future_cancle` (watchdog), line 570. -/
  cancelOk : Bool
  /-- `future.done()` inside the success branch (line 574). -/
  doneFinal : Bool
  /-- `check_process_alive` after the termination attempts (line 579). -/
  aliveAfter : Bool
deriving DecidableEq, Repr

/-- The mutable state of the `AsyncExecutor` singleton that the claims
mention. `running` is `_running_tasks` (id, `is_long_task`), `queued` is
`_queued_tasks`, `pids` is the shared `_process_pids`, `latest` is the id in
`_latest_task`, `mailbox` is `_callback_queue` (drained results only). -/
structure ExecState where
  running : List (TaskId × Bool)
  queued : List (TaskId × Descriptor)
  pids : List (TaskId × Nat)
  latest : Option TaskId
  mailbox : List ResultVal
  shutdownFlag : Bool
  loopReady : Bool
  /-- Whether `set_notify_processing` has installed a hook
  (`_notify_processing is not None`). -/
  notifySet : Bool
  /-- `_process_pool._broken`. -/
  poolBroken : Bool
  callbackDirect : Bool
  maxWorkers : Nat
  maxProcesses : Nat
  maxQueueSize : Nat
deriving DecidableEq, Repr

/-- `RunningTasksContainer.short_task_count`. -/
def shortTaskCount (s : ExecState) : Nat :=
  (s.running.filter (fun p => !p.2)).length

/-- `RunningTasksContainer.long_task_count`. -/
def longTaskCount (s : ExecState) : Nat :=
  (s.running.filter (fun p => p.2)).length

/-- The state right after `__init__`: empty registries, loop started and
ready, no notification hook installed. -/
def mkInitState (maxWorkers maxProcesses maxQueueSize : Nat) (callbackDirect : Bool) :
    ExecState :=
  { running := [], queued := [], pids := [], latest := none, mailbox := [],
    shutdownFlag := false, loopReady := true, notifySet := false, poolBroken := false,
    callbackDirect := callbackDirect, maxWorkers := maxWorkers,
    maxProcesses := maxProcesses, maxQueueSize := maxQueueSize }

/-- `_submit_task` (source lines 327-394).  On success the task is registered
as running and `_latest_task` is set.  An error carries the state as mutated
up to the raise point: the two guard raises happen before any mutation, while
calling the unset notification hook (line 394, `None(task_id)` raising
`TypeError`) happens after `_latest_task` (line 382) and the running-registry
entry (line 393) were already written. -/
def submit_task (s : ExecState) (tid : TaskId) (d : Descriptor) :
    Except (ExecState × Exc) ExecState :=
  if s.shutdownFlag then .error (s, .shutdownErr)
  else if ¬ s.loopReady then .error (s, .loopNotReady)
  else
    let s1 : ExecState :=
      { s with latest := some tid, running := setKey s.running tid d.isLong }
    if s.notifySet then .ok s1 else .error (s1, .typeErr)

/-- A `_submit_task` call whose exception, if any, is caught by the caller
(`execute_async` line 249, `_process_next_queued_task` line 471): the
resulting state together with whether the call succeeded. -/
def submitAttempt (s : ExecState) (tid : TaskId) (d : Descriptor) : ExecState × Bool :=
  match submit_task s tid d with
  | .ok s1 => (s1, true)
  | .error (s1, _) => (s1, false)

/-- `_cleanup_task` (lines 322-325): pop the task from the process registry
and the running registry. -/
def cleanup_task (s : ExecState) (tid : TaskId) : ExecState :=
  { s with pids := removeKey s.pids tid, running := removeKey s.running tid }

/-- `_restart_process_pool` (lines 396-404): replace the pool (same capacity,
no longer broken) and pop every pid-registered task from both the process
registry and the running registry. -/
def restart_process_pool (s : ExecState) : ExecState :=
  { s with running := s.pids.foldl (fun r p => removeKey r p.1) s.running,
           pids := [], poolBroken := false }

/-- Line 459-460: restart the process pool when it is broken. -/
def repairIfBroken (s : ExecState) : ExecState :=
  if s.poolBroken then restart_process_pool s else s

/-- Lines 476-477: pop the promoted task from the queued registry. -/
def popQueued (s : ExecState) (tid : TaskId) : ExecState :=
  { s with queued := removeKey s.queued tid }

/-- Lines 459-477 of `_process_next_queued_task`: repair the pool if broken,
attempt `_submit_task` (its exception, if any, caught and logged), then pop
the task from the queued registry. -/
def promoteSubmit (s : ExecState) (tid : TaskId) (d : Descriptor) : ExecState :=
  popQueued (submitAttempt (repairIfBroken s) tid d).1 tid

/-- `_process_next_queued_task` (lines 406-477).  Returns the new state and
whether the call raised `StopIteration` (the `next(iter(...))` on line 447
with an empty queue but a non-`None` `_latest_task`).  The head of `queued`
is the first-inserted entry, which is what `next(iter(dict.items()))`
yields. -/
def process_next_queued_task (s : ExecState) : ExecState × Bool :=
  if s.queued.isEmpty ∧ s.latest = none then (s, false)
  else
    match s.queued.head? with
    | none => (s, true)
    | some (tid, d) =>
      if (d.isLong = true ∧ s.maxProcesses ≤ s.pids.length) ∨
         (d.isLong = false ∧ s.maxWorkers ≤ s.running.length) then
        (s, false)
      else
        (promoteSubmit s tid d, false)

/-- Normalization of `future.result()` in `_done_callback` (lines 283-298):
an exception — whether raised by `future.result()` or returned as the
wrapper's value — is wrapped in a `RuntimeError`. -/
def normalizeResult : FutureResult → ResultVal
  | .res (.val v) => .normal v
  | .res (.excVal e) => .runtimeError e
  | .cancelled => .runtimeError .cancelledErr

/-- Lines 304-305 (and 515-516): clear `_latest_task` when it names this
task. -/
def clearLatest (s : ExecState) (tid : TaskId) : ExecState :=
  if s.latest = some tid then { s with latest := none } else s

/-- Lines 308-309: in deferred mode, put `(callback, result)` into
`_callback_queue`. -/
def mailboxPut (s : ExecState) (r : ResultVal) : ExecState :=
  if s.callbackDirect then s else { s with mailbox := s.mailbox ++ [r] }

/-- `_done_callback` (lines 279-320) for the future of `tid` resolving with
`fr`.  Returns the new state and the argument passed to the inline user
callback (`none` when no inline call happens).  Notes kept from the source:
`exist_id` (line 306) is computed before any registry mutation and neither
`clearLatest` nor `mailboxPut` touches the running registry, so it equals
`tid ∈ keysOf s.running`; `result_type` is always `None` (the assignments on
lines 293 and 296 are commented out), so promotion is attempted whenever the
running entry is still present; the stored future is the resolved one, so
`future.done()` on line 311 is equivalent to the entry existing; when
promotion raises `StopIteration` inside the lock, the inline callback call on
line 320 is skipped; the inline call (lines 317-320) requires a callback,
`exist_id` and direct mode, and no operation changes `callbackDirect`. -/
def done_callback (s : ExecState) (tid : TaskId) (fr : FutureResult) (hasCb : Bool) :
    ExecState × Option ResultVal :=
  if s.shutdownFlag then (s, none)
  else if tid ∈ keysOf s.running then
    match process_next_queued_task
        (cleanup_task (mailboxPut (clearLatest s tid) (normalizeResult fr)) tid) with
    | (s4, true) => (s4, none)
    | (s4, false) =>
        (s4, if hasCb && s.callbackDirect then some (normalizeResult fr) else none)
  else (mailboxPut (clearLatest s tid) (normalizeResult fr), none)

/-- `execute_async` (lines 199-252). -/
def execute_async (s : ExecState) (tid : TaskId) (d : Descriptor) : ExecState × Bool :=
  if s.shutdownFlag then (s, false)
  else if tid ∈ keysOf s.running ∨ tid ∈ keysOf s.queued then (s, false)
  else if (d.isLong = false ∧ s.maxWorkers ≤ shortTaskCount s) ∨
          (d.isLong = true ∧ s.maxProcesses ≤ longTaskCount s) then
    if s.maxQueueSize ≤ s.queued.length then (s, false)
    else ({ s with queued := s.queued ++ [(tid, d)] }, true)
  else submitAttempt s tid d

/-- `set_notify_processing` (lines 254-257). -/
def set_notify_processing (s : ExecState) : ExecState :=
  { s with notifySet := true }

/-- Lines 572-576 of `cancel_task`: inside the success branch, pop the
running entry when the future is observed done. -/
def dropDoneRunning (s : ExecState) (tid : TaskId) (doneFinal : Bool) : ExecState :=
  if doneFinal then { s with running := removeKey s.running tid } else s

/-- Lines 579-581 of `cancel_task`: pop the pid entry when the process is no
longer alive — including the `exist_pid is None` case, where
`check_process_alive(None)` returns `False` and the pop is a no-op. -/
def dropDeadPid (s : ExecState) (tid : TaskId) (aliveAfter : Bool) : ExecState :=
  if aliveAfter then s else { s with pids := removeKey s.pids tid }

/-- `cancel_task` (lines 512-589).  The queued branch (lines 518-526) needs no
oracle; the running branch's probes come from `orc`.  `_latest_task` is
cleared first when it names this task, and neither that nor anything before
the branch tests touches the registries, so the queued/running membership
tests read `s` directly.  `cancle_result` on line 567-570 is
`future.done() or _future_cancle(...)`. -/
def cancel_task (s : ExecState) (tid : TaskId) (orc : CancelOracle) : ExecState × Bool :=
  if tid ∈ keysOf s.queued then
    (popQueued (clearLatest s tid) tid, true)
  else if tid ∉ keysOf s.running then (clearLatest s tid, false)
  else if orc.doneAtCheck then (clearLatest s tid, false)
  else if orc.doneBeforeCancel || orc.cancelOk then
    (dropDeadPid (dropDoneRunning (clearLatest s tid) tid orc.doneFinal) tid orc.aliveAfter,
     true)
  else if ((s.running.lookup tid).getD false) = false then (clearLatest s tid, true)
  else (clearLatest s tid, false)

/-- `shutdown` (lines 627-674): no-op once the one-way flag is set; otherwise
set the flag, clear `_latest_task`, the queued registry and the loop-ready
event, terminate registered processes and clear the process registry, cancel
and clear running tasks, and drain the callback queue. -/
def shutdown (s : ExecState) : ExecState :=
  if s.shutdownFlag then s
  else
    { s with shutdownFlag := true, latest := none, queued := [], loopReady := false,
             pids := [], running := [], mailbox := [] }

/-- `_run_long_task` (lines 259-277), executing inside the worker process on
the process-registry component: `pids[tid] = pid` under the shared lock before
the callable is invoked, then the callable runs, then the `finally` block pops
the entry.  When the callable raises, the `except` block references the
never-imported `traceback` and raises `NameError`, after which the `finally`
still runs.  When the worker is externally killed (`RunExit.killed`), the
process dies immediately: the `finally` never executes and the entry stays. -/
def run_long_task (tid : TaskId) (pid : Nat) (frun : RunExit)
    (pids : List (TaskId × Nat)) : List (TaskId × Nat) × LongTaskOutcome :=
  let registered := setKey pids tid pid
  match frun with
  | .normal v => (removeKey registered tid, .returned v)
  | .raisesExc _ => (removeKey registered tid, .raised .nameErr)
  | .killed => (registered, .terminated)

/-- The long-task branch of the `async_wrapper` coroutine (lines 344-367):
`run_in_executor` on the process pool pickles the payload; a non-transferable
payload fails to pickle, the executor future resolves with that exception, the
`await` re-raises it and the outer `except` (line 365) returns it as the
coroutine's value.  A transferable payload runs `_run_long_task`; its return
value is the awaited result, an exception it raised is re-raised by `await`
and returned by the outer `except`, and a killed worker surfaces as
`BrokenProcessPool`, caught by the inner `except` (line 355) and returned. -/
def async_wrapper_long (transferable : Bool) (lout : LongTaskOutcome) : WrapperResult :=
  if transferable = false then .excVal .notTransferable
  else
    match lout with
    | .returned v => .val v
    | .raised e => .excVal e
    | .terminated => .excVal .brokenPool

/-- The short-task branch of the `async_wrapper` coroutine (lines 359-367):
the callable's value is returned; an exception it raises is re-raised by
`await` and returned by the outer `except`. -/
def async_wrapper_short (r : Except Exc Nat) : WrapperResult :=
  match r with
  | .ok v => .val v
  | .error e => .excVal e

/-- One observable operation on the executor.  `registerPid` and
`unregisterPid` are the worker-side process-registry writes of
`_run_long_task`; the worker only executes on behalf of a long task that was
submitted to the pool, i.e. one whose running-registry entry carries
`is_long_task = True`.  `poolBreak` models the process pool entering its
broken state after a worker died. -/
inductive Step where
  | submit (tid : TaskId) (d : Descriptor)
  | setNotify
  | complete (tid : TaskId) (fr : FutureResult) (hasCb : Bool)
  | cancel (tid : TaskId) (orc : CancelOracle)
  | registerPid (tid : TaskId) (pid : Nat)
  | unregisterPid (tid : TaskId)
  | poolBreak
  | doShutdown
deriving DecidableEq, Repr

/-- State transition of one step. -/
def stepFn (s : ExecState) : Step → ExecState
  | .submit tid d => (execute_async s tid d).1
  | .setNotify => set_notify_processing s
  | .complete tid fr hasCb => (done_callback s tid fr hasCb).1
  | .cancel tid orc => (cancel_task s tid orc).1
  | .registerPid tid pid =>
      if (tid, true) ∈ s.running then { s with pids := setKey s.pids tid pid } else s
  | .unregisterPid tid => { s with pids := removeKey s.pids tid }
  | .poolBreak => { s with poolBroken := true }
  | .doShutdown => shutdown s

/-- Run a trace of steps from a freshly initialized executor. -/
def runTrace (maxWorkers maxProcesses maxQueueSize : Nat) (callbackDirect : Bool)
    (steps : List Step) : ExecState :=
  steps.foldl stepFn (mkInitState maxWorkers maxProcesses maxQueueSize callbackDirect)

/-! Association-list lemmas. -/

theorem mem_keysOf_iff {α : Type} {l : List (TaskId × α)} {t : TaskId} :
    t ∈ keysOf l ↔ ∃ p ∈ l, p.1 = t := by
  simp [keysOf, List.mem_map]

theorem mem_keysOf_of_mem {α : Type} {l : List (TaskId × α)} {p : TaskId × α}
    (h : p ∈ l) : p.1 ∈ keysOf l :=
  mem_keysOf_iff.mpr ⟨p, h, rfl⟩

theorem mem_keysOf_removeKey_iff {α : Type} {l : List (TaskId × α)} {k t : TaskId} :
    t ∈ keysOf (removeKey l k) ↔ t ∈ keysOf l ∧ t ≠ k := by
  simp only [mem_keysOf_iff, removeKey, List.mem_filter, bne_iff_ne, ne_eq]
  constructor
  · rintro ⟨p, ⟨hp, hne⟩, rfl⟩
    exact ⟨⟨p, hp, rfl⟩, hne⟩
  · rintro ⟨⟨p, hp, rfl⟩, hne⟩
    exact ⟨p, ⟨hp, hne⟩, rfl⟩

theorem not_mem_keysOf_removeKey_self {α : Type} (l : List (TaskId × α)) (k : TaskId) :
    k ∉ keysOf (removeKey l k) := by
  intro h
  exact (mem_keysOf_removeKey_iff.mp h).2 rfl

theorem mem_keysOf_setKey_iff {α : Type} {l : List (TaskId × α)} {k t : TaskId} {v : α} :
    t ∈ keysOf (setKey l k v) ↔ t ∈ keysOf l ∨ t = k := by
  unfold setKey
  split
  case isTrue hk =>
    obtain ⟨q, hq, hqk⟩ := mem_keysOf_iff.mp hk
    constructor
    · intro h
      rcases mem_keysOf_iff.mp h with ⟨p, hp, rfl⟩
      rcases List.mem_map.mp hp with ⟨r, hr, rfl⟩
      by_cases hrk : r.1 = k
      · rw [if_pos hrk]
        exact Or.inr rfl
      · rw [if_neg hrk]
        exact Or.inl (mem_keysOf_of_mem hr)
    · rintro (h | rfl)
      · rcases mem_keysOf_iff.mp h with ⟨p, hp, rfl⟩
        by_cases hpk : p.1 = k
        · exact mem_keysOf_iff.mpr
            ⟨(k, v), List.mem_map.mpr ⟨q, hq, by rw [if_pos hqk]⟩, hpk.symm⟩
        · exact mem_keysOf_iff.mpr ⟨p, List.mem_map.mpr ⟨p, hp, by rw [if_neg hpk]⟩, rfl⟩
      · exact mem_keysOf_iff.mpr ⟨(t, v), List.mem_map.mpr ⟨q, hq, by rw [if_pos hqk]⟩, rfl⟩
  case isFalse hk =>
    constructor
    · intro h
      rcases mem_keysOf_iff.mp h with ⟨p, hp, rfl⟩
      rcases List.mem_append.mp hp with h1 | h1
      · exact Or.inl (mem_keysOf_of_mem h1)
      · have hpv : p = (k, v) := by simpa using h1
        exact Or.inr (by rw [hpv])
    · rintro (h | rfl)
      · rcases mem_keysOf_iff.mp h with ⟨p, hp, rfl⟩
        exact mem_keysOf_of_mem (List.mem_append.mpr (Or.inl hp))
      · exact mem_keysOf_of_mem
          (p := (t, v)) (List.mem_append.mpr (Or.inr (List.mem_cons_self _ _)))

theorem mem_keysOf_setKey_self {α : Type} (l : List (TaskId × α)) (k : TaskId) (v : α) :
    k ∈ keysOf (setKey l k v) :=
  mem_keysOf_setKey_iff.mpr (Or.inr rfl)

theorem mem_setKey_self {α : Type} (l : List (TaskId × α)) (k : TaskId) (v : α) :
    (k, v) ∈ setKey l k v := by
  unfold setKey
  split
  case isTrue hk =>
    obtain ⟨q, hq, hq1⟩ := mem_keysOf_iff.mp hk
    refine List.mem_map.mpr ⟨q, hq, by simp [hq1]⟩
  case isFalse hk =>
    simp

theorem mem_keysOf_foldl_removeKey {α β : Type} (ps : List (TaskId × β))
    (l : List (TaskId × α)) {t : TaskId}
    (h : t ∈ keysOf (ps.foldl (fun r p => removeKey r p.1) l)) : t ∈ keysOf l := by
  induction ps generalizing l with
  | nil => exact h
  | cons p rest ih =>
    have := ih (removeKey l p.1) h
    exact (mem_keysOf_removeKey_iff.mp this).1

theorem mem_keysOf_of_head? {α : Type} {l : List (TaskId × α)} {p : TaskId × α}
    (h : l.head? = some p) : p.1 ∈ keysOf l := by
  cases l with
  | nil => cases h
  | cons q rest =>
    cases h
    exact mem_keysOf_of_mem (List.mem_cons_self _ _)

/-! Characterization and preservation lemmas for the operations. -/

theorem submitAttempt_eq (s : ExecState) (tid : TaskId) (d : Descriptor) :
    submitAttempt s tid d =
      if s.shutdownFlag then (s, false)
      else if ¬ s.loopReady then (s, false)
      else ({ s with latest := some tid, running := setKey s.running tid d.isLong },
            s.notifySet) := by
  unfold submitAttempt submit_task
  by_cases h1 : s.shutdownFlag <;> by_cases h2 : s.loopReady <;>
    by_cases h3 : s.notifySet <;> simp [h1, h2, h3]

theorem submitAttempt_queued (s : ExecState) (tid : TaskId) (d : Descriptor) :
    (submitAttempt s tid d).1.queued = s.queued := by
  rw [submitAttempt_eq]
  split
  · rfl
  · split <;> rfl

theorem submitAttempt_pids (s : ExecState) (tid : TaskId) (d : Descriptor) :
    (submitAttempt s tid d).1.pids = s.pids := by
  rw [submitAttempt_eq]
  split
  · rfl
  · split <;> rfl

theorem submitAttempt_flags (s : ExecState) (tid : TaskId) (d : Descriptor) :
    (submitAttempt s tid d).1.shutdownFlag = s.shutdownFlag ∧
    (submitAttempt s tid d).1.loopReady = s.loopReady ∧
    (submitAttempt s tid d).1.notifySet = s.notifySet ∧
    (submitAttempt s tid d).1.poolBroken = s.poolBroken ∧
    (submitAttempt s tid d).1.callbackDirect = s.callbackDirect ∧
    (submitAttempt s tid d).1.mailbox = s.mailbox ∧
    (submitAttempt s tid d).1.maxWorkers = s.maxWorkers ∧
    (submitAttempt s tid d).1.maxProcesses = s.maxProcesses ∧
    (submitAttempt s tid d).1.maxQueueSize = s.maxQueueSize := by
  rw [submitAttempt_eq]
  split
  · exact ⟨rfl, rfl, rfl, rfl, rfl, rfl, rfl, rfl, rfl⟩
  · split <;> exact ⟨rfl, rfl, rfl, rfl, rfl, rfl, rfl, rfl, rfl⟩

theorem submitAttempt_running_mem {s : ExecState} {tid : TaskId} {d : Descriptor}
    {t : TaskId} (h : t ∈ keysOf (submitAttempt s tid d).1.running) :
    t ∈ keysOf s.running ∨ t = tid := by
  rw [submitAttempt_eq] at h
  split at h
  · exact Or.inl h
  · split at h
    · exact Or.inl h
    · exact mem_keysOf_setKey_iff.mp h

theorem submitAttempt_success (s : ExecState) (tid : TaskId) (d : Descriptor)
    (h1 : s.shutdownFlag = false) (h2 : s.loopReady = true) (h3 : s.notifySet = true) :
    submitAttempt s tid d =
      ({ s with latest := some tid, running := setKey s.running tid d.isLong }, true) := by
  rw [submitAttempt_eq]
  simp [h1, h2, h3]

theorem restart_running_mem {s : ExecState} {t : TaskId}
    (h : t ∈ keysOf (restart_process_pool s).running) : t ∈ keysOf s.running :=
  mem_keysOf_foldl_removeKey s.pids s.running h

theorem clearLatest_running (s : ExecState) (tid : TaskId) :
    (clearLatest s tid).running = s.running := by
  unfold clearLatest
  split <;> rfl

theorem clearLatest_queued (s : ExecState) (tid : TaskId) :
    (clearLatest s tid).queued = s.queued := by
  unfold clearLatest
  split <;> rfl

theorem clearLatest_pids (s : ExecState) (tid : TaskId) :
    (clearLatest s tid).pids = s.pids := by
  unfold clearLatest
  split <;> rfl

theorem mailboxPut_running (s : ExecState) (r : ResultVal) :
    (mailboxPut s r).running = s.running := by
  unfold mailboxPut
  split <;> rfl

theorem mailboxPut_queued (s : ExecState) (r : ResultVal) :
    (mailboxPut s r).queued = s.queued := by
  unfold mailboxPut
  split <;> rfl

theorem mailboxPut_pids (s : ExecState) (r : ResultVal) :
    (mailboxPut s r).pids = s.pids := by
  unfold mailboxPut
  split <;> rfl

theorem repairIfBroken_running_mem {s : ExecState} {t : TaskId}
    (h : t ∈ keysOf (repairIfBroken s).running) : t ∈ keysOf s.running := by
  unfold repairIfBroken at h
  split at h
  · exact restart_running_mem h
  · exact h

theorem repairIfBroken_queued (s : ExecState) : (repairIfBroken s).queued = s.queued := by
  unfold repairIfBroken
  split <;> rfl

theorem repairIfBroken_pids_mem {s : ExecState} {t : TaskId}
    (h : t ∈ keysOf (repairIfBroken s).pids) : t ∈ keysOf s.pids := by
  unfold repairIfBroken at h
  split at h
  · cases h
  · exact h

theorem promoteSubmit_running_mem {s : ExecState} {tid : TaskId} {d : Descriptor}
    {t : TaskId} (h : t ∈ keysOf (promoteSubmit s tid d).running) :
    t ∈ keysOf s.running ∨ t = tid := by
  unfold promoteSubmit popQueued at h
  rcases submitAttempt_running_mem h with h1 | rfl
  · exact Or.inl (repairIfBroken_running_mem h1)
  · exact Or.inr rfl

theorem promoteSubmit_queued_mem {s : ExecState} {tid : TaskId} {d : Descriptor}
    {t : TaskId} (h : t ∈ keysOf (promoteSubmit s tid d).queued) :
    t ∈ keysOf s.queued ∧ t ≠ tid := by
  unfold promoteSubmit popQueued at h
  have h1 := mem_keysOf_removeKey_iff.mp h
  rw [submitAttempt_queued, repairIfBroken_queued] at h1
  exact h1

theorem promoteSubmit_pids_mem {s : ExecState} {tid : TaskId} {d : Descriptor}
    {t : TaskId} (h : t ∈ keysOf (promoteSubmit s tid d).pids) : t ∈ keysOf s.pids := by
  unfold promoteSubmit popQueued at h
  have h1 : t ∈ keysOf (submitAttempt (repairIfBroken s) tid d).1.pids := h
  rw [submitAttempt_pids] at h1
  exact repairIfBroken_pids_mem h1

theorem pnqt_snd_eq_false {s : ExecState} (h : s.latest = none) :
    (process_next_queued_task s).2 = false := by
  unfold process_next_queued_task
  cases hq : s.queued with
  | nil => simp [h, hq]
  | cons p rest =>
    simp only [hq, List.isEmpty_cons, List.head?_cons]
    split
    · rfl
    · split
      · rfl
      · rfl

theorem pnqt_running_mem {s : ExecState} {t : TaskId}
    (h : t ∈ keysOf (process_next_queued_task s).1.running) :
    t ∈ keysOf s.running ∨ ∃ d, s.queued.head? = some (t, d) := by
  unfold process_next_queued_task at h
  split at h
  · exact Or.inl h
  · split at h
    · exact Or.inl h
    · rename_i tid d heq
      split at h
      · exact Or.inl h
      · rcases promoteSubmit_running_mem h with h1 | rfl
        · exact Or.inl h1
        · exact Or.inr ⟨d, heq⟩

theorem pnqt_queued_mem {s : ExecState} {t : TaskId}
    (h : t ∈ keysOf (process_next_queued_task s).1.queued) : t ∈ keysOf s.queued := by
  unfold process_next_queued_task at h
  split at h
  · exact h
  · split at h
    · exact h
    · split at h
      · exact h
      · exact (promoteSubmit_queued_mem h).1

theorem pnqt_pids_mem {s : ExecState} {t : TaskId}
    (h : t ∈ keysOf (process_next_queued_task s).1.pids) : t ∈ keysOf s.pids := by
  unfold process_next_queued_task at h
  split at h
  · exact h
  · split at h
    · exact h
    · split at h
      · exact h
      · exact promoteSubmit_pids_mem h

theorem done_callback_running_mem {s : ExecState} {tid : TaskId} {fr : FutureResult}
    {hasCb : Bool} {t : TaskId}
    (h : t ∈ keysOf (done_callback s tid fr hasCb).1.running) :
    t ∈ keysOf s.running ∨ ∃ d, s.queued.head? = some (t, d) := by
  unfold done_callback at h
  split at h
  · exact Or.inl h
  · have hcr : (cleanup_task (mailboxPut (clearLatest s tid) (normalizeResult fr)) tid).running
        = removeKey s.running tid := by
      show removeKey (mailboxPut (clearLatest s tid) (normalizeResult fr)).running tid
          = removeKey s.running tid
      rw [mailboxPut_running, clearLatest_running]
    have hcq : (cleanup_task (mailboxPut (clearLatest s tid) (normalizeResult fr)) tid).queued
        = s.queued := by
      show (mailboxPut (clearLatest s tid) (normalizeResult fr)).queued = s.queued
      rw [mailboxPut_queued, clearLatest_queued]
    split at h
    · split at h
      all_goals
        rename_i s4 heq
        rcases pnqt_running_mem (heq ▸ h :
            t ∈ keysOf (process_next_queued_task
              (cleanup_task (mailboxPut (clearLatest s tid) (normalizeResult fr)) tid)).1.running)
          with h1 | ⟨d, hd⟩
        · rw [hcr] at h1
          exact Or.inl (mem_keysOf_removeKey_iff.mp h1).1
        · rw [hcq] at hd
          exact Or.inr ⟨d, hd⟩
    · rw [mailboxPut_running, clearLatest_running] at h
      exact Or.inl h

theorem done_callback_queued_mem {s : ExecState} {tid : TaskId} {fr : FutureResult}
    {hasCb : Bool} {t : TaskId}
    (h : t ∈ keysOf (done_callback s tid fr hasCb).1.queued) : t ∈ keysOf s.queued := by
  unfold done_callback at h
  split at h
  · exact h
  · have hcq : (cleanup_task (mailboxPut (clearLatest s tid) (normalizeResult fr)) tid).queued
        = s.queued := by
      show (mailboxPut (clearLatest s tid) (normalizeResult fr)).queued = s.queued
      rw [mailboxPut_queued, clearLatest_queued]
    split at h
    · split at h
      all_goals
        rename_i s4 heq
        have h1 := pnqt_queued_mem (heq ▸ h :
            t ∈ keysOf (process_next_queued_task
              (cleanup_task (mailboxPut (clearLatest s tid) (normalizeResult fr)) tid)).1.queued)
        rw [hcq] at h1
        exact h1
    · rw [mailboxPut_queued, clearLatest_queued] at h
      exact h

theorem done_callback_pids_mem {s : ExecState} {tid : TaskId} {fr : FutureResult}
    {hasCb : Bool} {t : TaskId}
    (h : t ∈ keysOf (done_callback s tid fr hasCb).1.pids) : t ∈ keysOf s.pids := by
  unfold done_callback at h
  split at h
  · exact h
  · have hcp : (cleanup_task (mailboxPut (clearLatest s tid) (normalizeResult fr)) tid).pids
        = removeKey s.pids tid := by
      show removeKey (mailboxPut (clearLatest s tid) (normalizeResult fr)).pids tid
          = removeKey s.pids tid
      rw [mailboxPut_pids, clearLatest_pids]
    split at h
    · split at h
      all_goals
        rename_i s4 heq
        have h1 := pnqt_pids_mem (heq ▸ h :
            t ∈ keysOf (process_next_queued_task
              (cleanup_task (mailboxPut (clearLatest s tid) (normalizeResult fr)) tid)).1.pids)
        rw [hcp] at h1
        exact (mem_keysOf_removeKey_iff.mp h1).1
    · rw [mailboxPut_pids, clearLatest_pids] at h
      exact h

theorem cancel_running_mem {s : ExecState} {tid : TaskId} {orc : CancelOracle} {t : TaskId}
    (h : t ∈ keysOf (cancel_task s tid orc).1.running) : t ∈ keysOf s.running := by
  unfold cancel_task at h
  split at h
  · rw [show (popQueued (clearLatest s tid) tid).running = s.running from
      clearLatest_running s tid] at h
    exact h
  · split at h
    · rw [clearLatest_running] at h
      exact h
    · split at h
      · rw [clearLatest_running] at h
        exact h
      · split at h
        · unfold dropDeadPid dropDoneRunning at h
          split at h <;> split at h <;>
            simp only [clearLatest_running] at h <;>
            first
              | exact (mem_keysOf_removeKey_iff.mp h).1
              | exact h
        · split at h <;> (rw [clearLatest_running] at h; exact h)

theorem cancel_queued_mem {s : ExecState} {tid : TaskId} {orc : CancelOracle} {t : TaskId}
    (h : t ∈ keysOf (cancel_task s tid orc).1.queued) : t ∈ keysOf s.queued := by
  unfold cancel_task at h
  split at h
  · unfold popQueued at h
    have h1 := (mem_keysOf_removeKey_iff.mp h).1
    rw [clearLatest_queued] at h1
    exact h1
  · split at h
    · rw [clearLatest_queued] at h
      exact h
    · split at h
      · rw [clearLatest_queued] at h
        exact h
      · split at h
        · unfold dropDeadPid dropDoneRunning at h
          split at h <;> split at h <;>
            simp only [clearLatest_queued] at h <;> exact h
        · split at h <;> (rw [clearLatest_queued] at h; exact h)

theorem cancel_pids_mem {s : ExecState} {tid : TaskId} {orc : CancelOracle} {t : TaskId}
    (h : t ∈ keysOf (cancel_task s tid orc).1.pids) : t ∈ keysOf s.pids := by
  unfold cancel_task at h
  split at h
  · unfold popQueued at h
    rw [clearLatest_pids] at h
    exact h
  · split at h
    · rw [clearLatest_pids] at h
      exact h
    · split at h
      · rw [clearLatest_pids] at h
        exact h
      · split at h
        · unfold dropDeadPid dropDoneRunning at h
          split at h <;> split at h <;>
            simp only [clearLatest_pids] at h <;>
            first
              | exact (mem_keysOf_removeKey_iff.mp h).1
              | exact h
        · split at h <;> (rw [clearLatest_pids] at h; exact h)

/-! Invariants over the public operations. -/

/-- Claim C3's invariant: no identifier is in both the running and the queued
registry. -/
def RunQueueDisjoint (s : ExecState) : Prop :=
  ∀ t, t ∈ keysOf s.running → t ∉ keysOf s.queued

theorem disjoint_of_mem_sub {s s1 : ExecState}
    (hr : ∀ t, t ∈ keysOf s1.running → t ∈ keysOf s.running)
    (hq : ∀ t, t ∈ keysOf s1.queued → t ∈ keysOf s.queued)
    (h : RunQueueDisjoint s) : RunQueueDisjoint s1 :=
  fun t htr htq => h t (hr t htr) (hq t htq)

theorem execute_async_disjoint (s : ExecState) (tid : TaskId) (d : Descriptor)
    (h : RunQueueDisjoint s) : RunQueueDisjoint (execute_async s tid d).1 := by
  unfold execute_async
  split
  · exact h
  · split
    · exact h
    · rename_i hdup
      push_neg at hdup
      split
      · split
        · exact h
        · intro t htr htq
          simp only at htr htq
          rcases mem_keysOf_iff.mp htq with ⟨p, hp, rfl⟩
          rcases List.mem_append.mp hp with h1 | h1
          · exact h p.1 htr (mem_keysOf_of_mem h1)
          · have hpd : p = (tid, d) := by simpa using h1
            rw [hpd] at htr
            exact hdup.1 htr
      · intro t htr htq
        rw [submitAttempt_queued] at htq
        rcases submitAttempt_running_mem htr with h1 | rfl
        · exact h t h1 htq
        · exact hdup.2 htq

theorem pnqt_disjoint (s : ExecState) (h : RunQueueDisjoint s) :
    RunQueueDisjoint (process_next_queued_task s).1 := by
  unfold process_next_queued_task
  split
  · exact h
  · split
    · exact h
    · rename_i tid d heq
      split
      · exact h
      · intro t htr htq
        simp only at htr htq
        have hq2 := promoteSubmit_queued_mem htq
        rcases promoteSubmit_running_mem htr with h1 | rfl
        · exact h t h1 hq2.1
        · exact hq2.2 rfl

theorem done_callback_disjoint (s : ExecState) (tid : TaskId) (fr : FutureResult)
    (hasCb : Bool) (h : RunQueueDisjoint s) :
    RunQueueDisjoint (done_callback s tid fr hasCb).1 := by
  unfold done_callback
  split
  · exact h
  · have hdis : RunQueueDisjoint
        (cleanup_task (mailboxPut (clearLatest s tid) (normalizeResult fr)) tid) := by
      intro t htr htq
      have htr1 : t ∈ keysOf (removeKey
          (mailboxPut (clearLatest s tid) (normalizeResult fr)).running tid) := htr
      rw [mailboxPut_running, clearLatest_running] at htr1
      have htq1 : t ∈ keysOf (mailboxPut (clearLatest s tid) (normalizeResult fr)).queued := htq
      rw [mailboxPut_queued, clearLatest_queued] at htq1
      exact h t (mem_keysOf_removeKey_iff.mp htr1).1 htq1
    split
    · split
      all_goals
        rename_i s4 heq
        have hfin := pnqt_disjoint _ hdis
        rw [heq] at hfin
        exact hfin
    · intro t htr htq
      rw [mailboxPut_running, clearLatest_running] at htr
      rw [mailboxPut_queued, clearLatest_queued] at htq
      exact h t htr htq

theorem cancel_disjoint (s : ExecState) (tid : TaskId) (orc : CancelOracle)
    (h : RunQueueDisjoint s) : RunQueueDisjoint (cancel_task s tid orc).1 :=
  disjoint_of_mem_sub (fun _ ht => cancel_running_mem ht)
    (fun _ ht => cancel_queued_mem ht) h

theorem shutdown_disjoint (s : ExecState) (h : RunQueueDisjoint s) :
    RunQueueDisjoint (shutdown s) := by
  unfold shutdown
  split
  · exact h
  · intro t htr
    cases htr

theorem stepFn_disjoint (s : ExecState) (st : Step) (h : RunQueueDisjoint s) :
    RunQueueDisjoint (stepFn s st) := by
  cases st with
  | submit tid d => exact execute_async_disjoint s tid d h
  | setNotify => exact h
  | complete tid fr hasCb => exact done_callback_disjoint s tid fr hasCb h
  | cancel tid orc => exact cancel_disjoint s tid orc h
  | registerPid tid pid =>
    show RunQueueDisjoint (if (tid, true) ∈ s.running then
      { s with pids := setKey s.pids tid pid } else s)
    split
    · exact h
    · exact h
  | unregisterPid tid => exact h
  | poolBreak => exact h
  | doShutdown => exact shutdown_disjoint s h

theorem foldl_disjoint (steps : List Step) (s : ExecState) (h : RunQueueDisjoint s) :
    RunQueueDisjoint (steps.foldl stepFn s) := by
  induction steps generalizing s with
  | nil => exact h
  | cons st rest ih => exact ih (stepFn s st) (stepFn_disjoint s st h)

/-- Claim C7's invariant: the identifier is in none of the three registries. -/
def AbsentEverywhere (tid : TaskId) (s : ExecState) : Prop :=
  tid ∉ keysOf s.running ∧ tid ∉ keysOf s.queued ∧ tid ∉ keysOf s.pids

theorem execute_async_absent {tid : TaskId} (s : ExecState) (tid1 : TaskId)
    (d : Descriptor) (h : AbsentEverywhere tid s) (hne : tid1 ≠ tid) :
    AbsentEverywhere tid (execute_async s tid1 d).1 := by
  obtain ⟨hr, hq, hp⟩ := h
  unfold execute_async
  split
  · exact ⟨hr, hq, hp⟩
  · split
    · exact ⟨hr, hq, hp⟩
    · split
      · split
        · exact ⟨hr, hq, hp⟩
        · refine ⟨hr, ?_, hp⟩
          intro htq
          simp only at htq
          rcases mem_keysOf_iff.mp htq with ⟨p, hpm, hp1⟩
          rcases List.mem_append.mp hpm with h1 | h1
          · exact hq (hp1 ▸ mem_keysOf_of_mem h1)
          · have hpd : p = (tid1, d) := by simpa using h1
            rw [hpd] at hp1
            exact hne hp1
      · refine ⟨?_, ?_, ?_⟩
        · intro htr
          rcases submitAttempt_running_mem htr with h1 | rfl
          · exact hr h1
          · exact hne rfl
        · intro htq
          rw [submitAttempt_queued] at htq
          exact hq htq
        · intro htp
          rw [submitAttempt_pids] at htp
          exact hp htp

theorem done_callback_absent {tid : TaskId} (s : ExecState) (tid1 : TaskId)
    (fr : FutureResult) (hasCb : Bool) (h : AbsentEverywhere tid s) :
    AbsentEverywhere tid (done_callback s tid1 fr hasCb).1 := by
  obtain ⟨hr, hq, hp⟩ := h
  refine ⟨?_, ?_, ?_⟩
  · intro htr
    rcases done_callback_running_mem htr with h1 | ⟨d, hd⟩
    · exact hr h1
    · exact hq (mem_keysOf_of_head? hd)
  · intro htq
    exact hq (done_callback_queued_mem htq)
  · intro htp
    exact hp (done_callback_pids_mem htp)

theorem cancel_absent {tid : TaskId} (s : ExecState) (tid1 : TaskId) (orc : CancelOracle)
    (h : AbsentEverywhere tid s) : AbsentEverywhere tid (cancel_task s tid1 orc).1 :=
  ⟨fun ht => h.1 (cancel_running_mem ht), fun ht => h.2.1 (cancel_queued_mem ht),
   fun ht => h.2.2 (cancel_pids_mem ht)⟩

theorem stepFn_absent {tid : TaskId} (s : ExecState) (st : Step)
    (h : AbsentEverywhere tid s) (hst : ∀ d, st ≠ Step.submit tid d) :
    AbsentEverywhere tid (stepFn s st) := by
  cases st with
  | submit tid1 d =>
    refine execute_async_absent s tid1 d h ?_
    intro heq
    exact hst d (by rw [heq])
  | setNotify => exact h
  | complete tid1 fr hasCb => exact done_callback_absent s tid1 fr hasCb h
  | cancel tid1 orc => exact cancel_absent s tid1 orc h
  | registerPid tid1 pid =>
    show AbsentEverywhere tid (if (tid1, true) ∈ s.running then
      { s with pids := setKey s.pids tid1 pid } else s)
    split
    · rename_i hmem
      refine ⟨h.1, h.2.1, ?_⟩
      intro htp
      rcases mem_keysOf_setKey_iff.mp htp with h1 | rfl
      · exact h.2.2 h1
      · exact h.1 (mem_keysOf_of_mem hmem)
    · exact h
  | unregisterPid tid1 =>
    exact ⟨h.1, h.2.1, fun ht => h.2.2 (mem_keysOf_removeKey_iff.mp ht).1⟩
  | poolBreak => exact h
  | doShutdown =>
    show AbsentEverywhere tid (shutdown s)
    unfold shutdown
    split
    · exact h
    · refine ⟨?_, ?_, ?_⟩ <;> intro ht <;> cases ht

theorem foldl_absent {tid : TaskId} (steps : List Step) (s : ExecState)
    (h : AbsentEverywhere tid s)
    (hsteps : ∀ st ∈ steps, ∀ d, st ≠ Step.submit tid d) :
    AbsentEverywhere tid (steps.foldl stepFn s) := by
  induction steps generalizing s with
  | nil => exact h
  | cons st rest ih =>
    exact ih (stepFn s st)
      (stepFn_absent s st h (hsteps st (List.mem_cons_self _ _)))
      (fun st1 hm => hsteps st1 (List.mem_cons_of_mem _ hm))

theorem mailboxPut_latest (s : ExecState) (r : ResultVal) :
    (mailboxPut s r).latest = s.latest := by
  unfold mailboxPut
  split <;> rfl

theorem clearLatest_latest_self {s : ExecState} {tid : TaskId} (h : s.latest = some tid) :
    (clearLatest s tid).latest = none := by
  unfold clearLatest
  rw [if_pos h]

theorem execute_async_immediate (s : ExecState) (tid : TaskId) (d : Descriptor)
    (hsf : s.shutdownFlag = false)
    (hfr : tid ∉ keysOf s.running) (hfq : tid ∉ keysOf s.queued)
    (hcap : ¬ ((d.isLong = false ∧ s.maxWorkers ≤ shortTaskCount s) ∨
               (d.isLong = true ∧ s.maxProcesses ≤ longTaskCount s))) :
    execute_async s tid d = submitAttempt s tid d := by
  unfold execute_async
  rw [if_neg (by simp [hsf]), if_neg (not_or.mpr ⟨hfr, hfq⟩), if_neg hcap]

/-! Theorems for the claims of the specification. -/

/-- C9: `shutdown` is idempotent — once one call has taken effect (the one-way
flag is set), every further call returns without raising and changes no
state. -/
theorem shutdown_idempotent (s : ExecState) :
    shutdown (shutdown s) = shutdown s ∧ (shutdown s).shutdownFlag = true := by
  unfold shutdown
  by_cases h : s.shutdownFlag = true <;> simp [h]

/-- C4: `execute_async` returns `false` and leaves all registries and engine
state unchanged when the executor is shutting down or the task id is already
present in the running or queued registry. -/
theorem execute_async_reject_no_change (s : ExecState) (tid : TaskId) (d : Descriptor)
    (h : s.shutdownFlag = true ∨ tid ∈ keysOf s.running ∨ tid ∈ keysOf s.queued) :
    execute_async s tid d = (s, false) := by
  unfold execute_async
  by_cases h1 : s.shutdownFlag = true
  · rw [if_pos h1]
  · rw [if_neg h1, if_pos (h.resolve_left h1)]

/-- C1: when the relevant pool is at capacity (counted per kind) and the task
id is fresh while the executor is live, `execute_async` appends the descriptor
at the tail of the queued registry and returns `true` if the queued registry
holds fewer than `max_queue_size` entries, and returns `false` with no state
change if it already holds `max_queue_size` (or more) entries. -/
theorem execute_async_at_capacity (s : ExecState) (tid : TaskId) (d : Descriptor)
    (hsf : s.shutdownFlag = false)
    (hfr : tid ∉ keysOf s.running) (hfq : tid ∉ keysOf s.queued)
    (hcap : (d.isLong = false ∧ s.maxWorkers ≤ shortTaskCount s) ∨
            (d.isLong = true ∧ s.maxProcesses ≤ longTaskCount s)) :
    (s.queued.length < s.maxQueueSize →
       execute_async s tid d = ({ s with queued := s.queued ++ [(tid, d)] }, true)) ∧
    (s.maxQueueSize ≤ s.queued.length → execute_async s tid d = (s, false)) := by
  unfold execute_async
  rw [if_neg (by simp [hsf]), if_neg (not_or.mpr ⟨hfr, hfq⟩), if_pos hcap]
  constructor
  · intro hlen
    rw [if_neg (by omega)]
  · intro hlen
    rw [if_pos hlen]

/-- C10: with no start-notification hook registered, an immediate submission
fails — `_submit_task` calls the unset hook and raises after the running
registry was already written, so `execute_async` returns `false` even though
the pool has free capacity and the id is fresh, and the task is left in the
running registry. -/
theorem execute_async_unset_hook (s : ExecState) (tid : TaskId) (d : Descriptor)
    (hsf : s.shutdownFlag = false) (hlr : s.loopReady = true) (hn : s.notifySet = false)
    (hfr : tid ∉ keysOf s.running) (hfq : tid ∉ keysOf s.queued)
    (hcap : ¬ ((d.isLong = false ∧ s.maxWorkers ≤ shortTaskCount s) ∨
               (d.isLong = true ∧ s.maxProcesses ≤ longTaskCount s))) :
    (execute_async s tid d).2 = false ∧
    tid ∈ keysOf (execute_async s tid d).1.running := by
  rw [execute_async_immediate s tid d hsf hfr hfq hcap, submitAttempt_eq,
      if_neg (by simp [hsf]), if_neg (by simp [hlr])]
  exact ⟨hn, mem_keysOf_setKey_self _ _ _⟩

/-- C2: a completion event promotes at most one queued task, namely the
oldest entry of the queued registry: every identifier running afterwards was
already running or is the head (first-inserted entry) of the queued registry,
and no identifier enters the queued registry. -/
theorem completion_promotes_only_oldest (s : ExecState) (tid : TaskId)
    (fr : FutureResult) (hasCb : Bool) :
    (∀ t, t ∈ keysOf (done_callback s tid fr hasCb).1.running →
       t ∈ keysOf s.running ∨ ∃ d, s.queued.head? = some (t, d)) ∧
    (∀ t, t ∈ keysOf (done_callback s tid fr hasCb).1.queued → t ∈ keysOf s.queued) :=
  ⟨fun _ ht => done_callback_running_mem ht, fun _ ht => done_callback_queued_mem ht⟩

/-- C3: in every state reachable from a freshly initialized executor through
the public operations (submit, completion, cancellation, promotion inside
completion, pid registration, pool break, shutdown), no identifier is in both
the running and the queued registry. -/
theorem trace_running_queued_disjoint (maxW maxP maxQ : Nat) (direct : Bool)
    (steps : List Step) (t : TaskId)
    (ht : t ∈ keysOf (runTrace maxW maxP maxQ direct steps).running) :
    t ∉ keysOf (runTrace maxW maxP maxQ direct steps).queued := by
  unfold runTrace at ht ⊢
  refine foldl_disjoint steps _ ?_ t ht
  intro t1 ht1
  simp [mkInitState, keysOf] at ht1
theorem done_callback_delivers (s : ExecState) (tid : TaskId) (fr : FutureResult)
    (hsf : s.shutdownFlag = false) (hdir : s.callbackDirect = true)
    (hmem : tid ∈ keysOf s.running) (hlat : s.latest = some tid) :
    (done_callback s tid fr true).2 = some (normalizeResult fr) := by
  unfold done_callback
  rw [if_neg (by simp [hsf]), if_pos hmem]
  have hlat2 : (cleanup_task (mailboxPut (clearLatest s tid)
      (normalizeResult fr)) tid).latest = none := by
    show (mailboxPut (clearLatest s tid) (normalizeResult fr)).latest = none
    rw [mailboxPut_latest, clearLatest_latest_self hlat]
  have hp2 := pnqt_snd_eq_false hlat2
  have hsplit : process_next_queued_task (cleanup_task (mailboxPut (clearLatest s tid)
        (normalizeResult fr)) tid)
      = ((process_next_queued_task (cleanup_task (mailboxPut (clearLatest s tid)
          (normalizeResult fr)) tid)).1, false) := by
    rw [← hp2]
  rw [hsplit]
  simp [hdir]

/-- C5: submitting a long task with a non-transferable payload never raises
out of `execute_async` (it returns `true`); the pickling failure becomes the
value of the `async_wrapper` coroutine, and the normal completion path hands
the completion callback a failure wrapping the not-transferable cause —
whatever the callable itself would have done. -/
theorem long_not_transferable_callback (s : ExecState) (tid : TaskId) (d : Descriptor)
    (lout : LongTaskOutcome)
    (hsf : s.shutdownFlag = false) (hlr : s.loopReady = true) (hn : s.notifySet = true)
    (hdir : s.callbackDirect = true)
    (hlong : d.isLong = true) (htr : d.transferable = false)
    (hfr : tid ∉ keysOf s.running) (hfq : tid ∉ keysOf s.queued)
    (hcap : longTaskCount s < s.maxProcesses) :
    (execute_async s tid d).2 = true ∧
    async_wrapper_long d.transferable lout = WrapperResult.excVal Exc.notTransferable ∧
    (done_callback (execute_async s tid d).1 tid
        (FutureResult.res (async_wrapper_long d.transferable lout)) true).2 =
      some (ResultVal.runtimeError Exc.notTransferable) := by
  have hcapn : ¬ ((d.isLong = false ∧ s.maxWorkers ≤ shortTaskCount s) ∨
      (d.isLong = true ∧ s.maxProcesses ≤ longTaskCount s)) := by
    rintro (⟨h1, _⟩ | ⟨_, h2⟩)
    · rw [hlong] at h1
      cases h1
    · omega
  have hexec : execute_async s tid d =
      ({ s with latest := some tid, running := setKey s.running tid d.isLong }, true) := by
    rw [execute_async_immediate s tid d hsf hfr hfq hcapn,
        submitAttempt_success s tid d hsf hlr hn]
  have hwrap : async_wrapper_long d.transferable lout
      = WrapperResult.excVal Exc.notTransferable := by
    unfold async_wrapper_long
    rw [if_pos htr]
  have hdel := done_callback_delivers (execute_async s tid d).1 tid
      (FutureResult.res (WrapperResult.excVal Exc.notTransferable))
      (by rw [hexec]; exact hsf) (by rw [hexec]; exact hdir)
      (by rw [hexec]; exact mem_keysOf_setKey_self s.running tid d.isLong)
      (by rw [hexec])
  refine ⟨by rw [hexec], hwrap, ?_⟩
  rw [hwrap, hdel]
  rfl

/-- Executor configured with one thread worker and one process worker, hook
installed (`set_notify_processing`). -/
def c6s1 : ExecState := set_notify_processing (mkInitState 1 1 10 true)

/-- Short task `t0` admitted and running immediately. -/
def c6s2 : ExecState := (execute_async c6s1 "t0"
  { isLong := false, transferable := true, hasCallback := false }).1

/-- Long task `t1` admitted and running immediately; its worker has not yet
registered a pid in the Process Registry. -/
def c6s3 : ExecState := (execute_async c6s2 "t1"
  { isLong := true, transferable := true, hasCallback := false }).1

/-- Long task `t2` queued: the running long count (1) is at process-pool
capacity (1). -/
def c6s4 : ExecState := (execute_async c6s3 "t2"
  { isLong := true, transferable := true, hasCallback := false }).1

/-- Completion of the short task `t0`, which triggers queue promotion. -/
def c6Final : ExecState :=
  (done_callback c6s4 "t0" (FutureResult.res (WrapperResult.val 0)) false).1

/-- C6 counterexample: in the reachable state `c6s4` the oldest queued
descriptor `t2` is a long task and the process pool is at capacity by the
running long count (1 running long task, capacity 1) — yet completing `t0`
promotes `t2` into the running registry, overcommitting the process pool,
because the code's promotion guard counts `_process_pids` (still empty)
instead of running long tasks. -/
theorem promotion_capacity_counterexample :
    longTaskCount c6s4 = c6s4.maxProcesses ∧
    c6s4.queued.head? = some ("t2",
      { isLong := true, transferable := true, hasCallback := false }) ∧
    c6s4.pids = [] ∧
    "t2" ∈ keysOf c6Final.running ∧
    "t2" ∉ keysOf c6Final.queued ∧
    c6Final.maxProcesses < longTaskCount c6Final := by
  decide

/-- C6 amended: promotion submits the oldest queued descriptor only under the
code's capacity test — for a long head, strictly fewer Process-Registry
entries than process-pool capacity; for a short head, total running count
(short and long together) strictly below thread-pool capacity.  When that
test fails the promotion call changes nothing, and in every case no queued
task other than the head can start. -/
theorem promotion_guard_amended (s : ExecState) (tid : TaskId) (d : Descriptor)
    (hhead : s.queued.head? = some (tid, d)) :
    ((d.isLong = true ∧ s.maxProcesses ≤ s.pids.length) ∨
     (d.isLong = false ∧ s.maxWorkers ≤ s.running.length) →
       process_next_queued_task s = (s, false)) ∧
    (∀ t, t ∈ keysOf (process_next_queued_task s).1.running →
       t ∈ keysOf s.running ∨ t = tid) := by
  constructor
  · intro hfull
    unfold process_next_queued_task
    have hne : s.queued.isEmpty = false := by
      cases hq : s.queued
      · rw [hq] at hhead
        cases hhead
      · rfl
    rw [if_neg (by simp [hne]), hhead]
    exact if_pos hfull
  · intro t ht
    rcases pnqt_running_mem ht with h1 | ⟨d1, hd1⟩
    · exact Or.inl h1
    · rw [hhead] at hd1
      have hp : tid = t ∧ d = d1 := by simpa using hd1
      exact Or.inr hp.1.symm

/-- State for the amended-C6 witness: a long task is at capacity by the
Process-Registry count, and a long task is queued. -/
def c6ws : ExecState :=
  { mkInitState 2 1 10 true with
      running := [("r", true)], pids := [("r", 7)], notifySet := true,
      queued := [("q", { isLong := true, transferable := true, hasCallback := false })] }

theorem promotion_guard_amended_witness :
    (c6ws.queued.head? = some ("q",
      { isLong := true, transferable := true, hasCallback := false })) ∧
    ((({ isLong := true, transferable := true, hasCallback := false } : Descriptor).isLong
          = true ∧ c6ws.maxProcesses ≤ c6ws.pids.length) ∨
     (({ isLong := true, transferable := true, hasCallback := false } : Descriptor).isLong
          = false ∧ c6ws.maxWorkers ≤ c6ws.running.length) →
       process_next_queued_task c6ws = (c6ws, false)) ∧
    (∀ t, t ∈ keysOf (process_next_queued_task c6ws).1.running →
       t ∈ keysOf c6ws.running ∨ t = "q") :=
  ⟨by decide,
   (promotion_guard_amended c6ws "q"
      { isLong := true, transferable := true, hasCallback := false } (by decide)).1,
   (promotion_guard_amended c6ws "q"
      { isLong := true, transferable := true, hasCallback := false } (by decide)).2⟩

/-- C7: cancelling a task that is in the queued registry returns `true`,
removes exactly that entry, leaves the running registry and the Process
Registry untouched, and the task never starts: along any continuation of
public operations that does not submit the same identifier afresh, the
identifier never appears in the running registry or the Process Registry. -/
theorem cancel_queued_never_starts (s : ExecState) (tid : TaskId) (orc : CancelOracle)
    (hq : tid ∈ keysOf s.queued) (hr : tid ∉ keysOf s.running) (hp : tid ∉ keysOf s.pids) :
    (cancel_task s tid orc).2 = true ∧
    tid ∉ keysOf (cancel_task s tid orc).1.queued ∧
    (cancel_task s tid orc).1.running = s.running ∧
    (cancel_task s tid orc).1.pids = s.pids ∧
    ∀ steps : List Step, (∀ st ∈ steps, ∀ d, st ≠ Step.submit tid d) →
      tid ∉ keysOf (steps.foldl stepFn (cancel_task s tid orc).1).running ∧
      tid ∉ keysOf (steps.foldl stepFn (cancel_task s tid orc).1).pids := by
  have hc : cancel_task s tid orc = (popQueued (clearLatest s tid) tid, true) := by
    unfold cancel_task
    rw [if_pos hq]
  rw [hc]
  refine ⟨rfl, ?_, ?_, ?_, ?_⟩
  · show tid ∉ keysOf (removeKey (clearLatest s tid).queued tid)
    exact not_mem_keysOf_removeKey_self _ _
  · show (clearLatest s tid).running = s.running
    exact clearLatest_running s tid
  · show (clearLatest s tid).pids = s.pids
    exact clearLatest_pids s tid
  · intro steps hsteps
    have habs : AbsentEverywhere tid (popQueued (clearLatest s tid) tid) := by
      refine ⟨?_, ?_, ?_⟩
      · show tid ∉ keysOf (clearLatest s tid).running
        rw [clearLatest_running]
        exact hr
      · show tid ∉ keysOf (removeKey (clearLatest s tid).queued tid)
        exact not_mem_keysOf_removeKey_self _ _
      · show tid ∉ keysOf (clearLatest s tid).pids
        rw [clearLatest_pids]
        exact hp
    have hfin := foldl_absent steps _ habs hsteps
    exact ⟨hfin.1, hfin.2.2⟩

/-- State for the C7 witness: task `q` is queued (pool at capacity), nothing
else admitted. -/
def c7ws : ExecState :=
  { mkInitState 0 1 5 true with
      queued := [("q", { isLong := false, transferable := true, hasCallback := false })] }

/-- Oracle for the C7 witness (unused by the queued branch). -/
def c7orc : CancelOracle :=
  { doneAtCheck := false, doneBeforeCancel := false, cancelOk := false,
    doneFinal := false, aliveAfter := false }

theorem cancel_queued_never_starts_witness :
    ("q" ∈ keysOf c7ws.queued ∧ "q" ∉ keysOf c7ws.running ∧ "q" ∉ keysOf c7ws.pids) ∧
    ((cancel_task c7ws "q" c7orc).2 = true ∧
     "q" ∉ keysOf (cancel_task c7ws "q" c7orc).1.queued ∧
     (cancel_task c7ws "q" c7orc).1.running = c7ws.running ∧
     (cancel_task c7ws "q" c7orc).1.pids = c7ws.pids ∧
     ∀ steps : List Step, (∀ st ∈ steps, ∀ d, st ≠ Step.submit "q" d) →
       "q" ∉ keysOf (steps.foldl stepFn (cancel_task c7ws "q" c7orc).1).running ∧
       "q" ∉ keysOf (steps.foldl stepFn (cancel_task c7ws "q" c7orc).1).pids) :=
  ⟨by decide,
   cancel_queued_never_starts c7ws "q" c7orc (by decide) (by decide) (by decide)⟩

/-- C8 counterexample: when the worker process is externally terminated in the
middle of the callable (`RunExit.killed` — `SIGKILL`/`TerminateProcess`), the
wrapper's `finally` cleanup never runs, so the Process-Registry entry written
before the callable was invoked is still present afterwards. -/
theorem run_long_task_killed_leaves_entry :
    run_long_task "t" 42 RunExit.killed [] = ([("t", 42)], LongTaskOutcome.terminated) := by
  decide

/-- C8 amended: `_run_long_task` records the worker's pid under the task id
before invoking the callable, and its `finally` cleanup removes the entry on
every Python-level exit of the wrapper — normal return or exception.  If the
process is externally terminated, the wrapper cannot run any cleanup and the
registration (made before the callable started, as the killed run shows)
remains until the parent removes it. -/
theorem run_long_task_cleanup_amended (tid : TaskId) (pid : Nat) (frun : RunExit)
    (pids : List (TaskId × Nat)) (hfrun : frun ≠ RunExit.killed) :
    tid ∉ keysOf (run_long_task tid pid frun pids).1 ∧
    (tid, pid) ∈ (run_long_task tid pid RunExit.killed pids).1 := by
  constructor
  · cases frun with
    | normal v => exact not_mem_keysOf_removeKey_self _ _
    | raisesExc e => exact not_mem_keysOf_removeKey_self _ _
    | killed => exact absurd rfl hfrun
  · exact mem_setKey_self pids tid pid

theorem run_long_task_cleanup_amended_witness :
    (RunExit.normal 3 ≠ RunExit.killed) ∧
    ("t" ∉ keysOf (run_long_task "t" 5 (RunExit.normal 3) []).1 ∧
     ("t", 5) ∈ (run_long_task "t" 5 RunExit.killed []).1) :=
  ⟨by decide, run_long_task_cleanup_amended "t" 5 (RunExit.normal 3) [] (by decide)⟩

/-- State for the C4 witness: executor already shutting down. -/
def c4ws : ExecState := { mkInitState 1 1 1 true with shutdownFlag := true }

theorem execute_async_reject_no_change_witness :
    (c4ws.shutdownFlag = true ∨ "a" ∈ keysOf c4ws.running ∨ "a" ∈ keysOf c4ws.queued) ∧
    execute_async c4ws "a" { isLong := false, transferable := true, hasCallback := false }
      = (c4ws, false) :=
  ⟨by decide, execute_async_reject_no_change c4ws "a"
    { isLong := false, transferable := true, hasCallback := false } (by decide)⟩

/-- State for the C1 witness: zero thread workers, so the short pool is at
capacity with nothing running. -/
def c1ws : ExecState := mkInitState 0 1 2 true

/-- Descriptor for the C1 witness. -/
def c1wd : Descriptor := { isLong := false, transferable := true, hasCallback := false }

theorem execute_async_at_capacity_witness :
    (c1ws.shutdownFlag = false ∧
     "a" ∉ keysOf c1ws.running ∧ "a" ∉ keysOf c1ws.queued ∧
     ((c1wd.isLong = false ∧ c1ws.maxWorkers ≤ shortTaskCount c1ws) ∨
      (c1wd.isLong = true ∧ c1ws.maxProcesses ≤ longTaskCount c1ws))) ∧
    ((c1ws.queued.length < c1ws.maxQueueSize →
       execute_async c1ws "a" c1wd = ({ c1ws with queued := c1ws.queued ++ [("a", c1wd)] }, true)) ∧
     (c1ws.maxQueueSize ≤ c1ws.queued.length → execute_async c1ws "a" c1wd = (c1ws, false))) :=
  ⟨by decide,
   execute_async_at_capacity c1ws "a" c1wd (by decide) (by decide) (by decide) (by decide)⟩

/-- State for the C10 witness: fresh executor without a notification hook. -/
def c10ws : ExecState := mkInitState 1 1 2 true

/-- Descriptor for the C10 witness. -/
def c10wd : Descriptor := { isLong := false, transferable := true, hasCallback := false }

theorem execute_async_unset_hook_witness :
    (c10ws.shutdownFlag = false ∧ c10ws.loopReady = true ∧ c10ws.notifySet = false ∧
     "a" ∉ keysOf c10ws.running ∧ "a" ∉ keysOf c10ws.queued ∧
     ¬ ((c10wd.isLong = false ∧ c10ws.maxWorkers ≤ shortTaskCount c10ws) ∨
        (c10wd.isLong = true ∧ c10ws.maxProcesses ≤ longTaskCount c10ws))) ∧
    ((execute_async c10ws "a" c10wd).2 = false ∧
     "a" ∈ keysOf (execute_async c10ws "a" c10wd).1.running) :=
  ⟨by decide,
   execute_async_unset_hook c10ws "a" c10wd (by decide) (by decide) (by decide)
     (by decide) (by decide) (by decide)⟩

/-- State for the C5 witness: fresh executor with the hook installed. -/
def c5ws : ExecState := set_notify_processing (mkInitState 2 1 10 true)

/-- Descriptor for the C5 witness: a long, non-transferable task with a
callback. -/
def c5wd : Descriptor := { isLong := true, transferable := false, hasCallback := true }

theorem long_not_transferable_callback_witness :
    (c5ws.shutdownFlag = false ∧ c5ws.loopReady = true ∧ c5ws.notifySet = true ∧
     c5ws.callbackDirect = true ∧ c5wd.isLong = true ∧ c5wd.transferable = false ∧
     "t" ∉ keysOf c5ws.running ∧ "t" ∉ keysOf c5ws.queued ∧
     longTaskCount c5ws < c5ws.maxProcesses) ∧
    ((execute_async c5ws "t" c5wd).2 = true ∧
     async_wrapper_long c5wd.transferable (LongTaskOutcome.returned 0)
       = WrapperResult.excVal Exc.notTransferable ∧
     (done_callback (execute_async c5ws "t" c5wd).1 "t"
         (FutureResult.res (async_wrapper_long c5wd.transferable
           (LongTaskOutcome.returned 0))) true).2 =
       some (ResultVal.runtimeError Exc.notTransferable)) :=
  ⟨by decide,
   long_not_transferable_callback c5ws "t" c5wd (LongTaskOutcome.returned 0)
     (by decide) (by decide) (by decide) (by decide) (by decide) (by decide)
     (by decide) (by decide) (by decide)⟩

/-- State for the C2 witness: one running short task, two queued tasks. -/
def c2ws : ExecState :=
  { mkInitState 1 1 5 true with
      running := [("a", false)], notifySet := true,
      queued := [("b", { isLong := false, transferable := true, hasCallback := false }),
                 ("c", { isLong := false, transferable := true, hasCallback := false })] }

theorem completion_promotes_only_oldest_witness :
    (∀ t, t ∈ keysOf (done_callback c2ws "a"
        (FutureResult.res (WrapperResult.val 1)) false).1.running →
       t ∈ keysOf c2ws.running ∨ ∃ d, c2ws.queued.head? = some (t, d)) ∧
    (∀ t, t ∈ keysOf (done_callback c2ws "a"
        (FutureResult.res (WrapperResult.val 1)) false).1.queued →
       t ∈ keysOf c2ws.queued) :=
  completion_promotes_only_oldest c2ws "a" (FutureResult.res (WrapperResult.val 1)) false

/-- Step list for the C3 witness. -/
def c3wsteps : List Step :=
  [Step.setNotify,
   Step.submit "a" { isLong := false, transferable := true, hasCallback := false }]

theorem trace_running_queued_disjoint_witness :
    "a" ∈ keysOf (runTrace 1 1 2 true c3wsteps).running ∧
    "a" ∉ keysOf (runTrace 1 1 2 true c3wsteps).queued :=
  ⟨by decide, trace_running_queued_disjoint 1 1 2 true c3wsteps "a" (by decide)⟩

theorem shutdown_idempotent_witness :
    shutdown (shutdown (mkInitState 1 1 2 true)) = shutdown (mkInitState 1 1 2 true) ∧
    (shutdown (mkInitState 1 1 2 true)).shutdownFlag = true :=
  shutdown_idempotent (mkInitState 1 1 2 true)

end AsyncExec
